import Mathlib

/-!
Shallow embedding of the task-tracker core: the Redux todo slice
(`src/features/todo/todoSlice.js`) and the view projector
(`filteredTodos` in `src/components/TodoForm.jsx`).

Modelling choices:
* The `priority` field of a todo is high, medium, low or null in the
  source; we model it as `Option Priority`, with `none` standing for the
  JS `null`/`undefined` sentinel (both rank 3 in the comparator).
* Optional payload fields (`priority`, `tags`) are `Option`s; `none`
  stands for an absent/`null`/`undefined` JS field.  The JS idioms
  `payload.priority || null` and `payload.tags || []` become the
  identity on `Option Priority` and `Option.getD []` respectively.
* `nanoid()` is an external unique-id generator; `addTodo` takes its
  output as an explicit `newId : String` argument, and freshness of
  that output appears as a hypothesis where a claim needs it.
* `localStorage` writes mirror the in-memory state byte for byte and
  are dropped from the state-transformer model.
-/

namespace TaskTracker

/-- Priority levels a todo can carry: the source strings "high",
"medium" and "low".  The JS `null` ("no priority") is `Option.none`
around this type. -/
inductive Priority where
  | high
  | medium
  | low
deriving DecidableEq, Repr

/-- A todo object, as built by the `addTodo` reducer:
`{id, title, description, targetDate, priority, tags, isCompleted}`. -/
structure Todo where
  id : String
  title : String
  description : String
  targetDate : Option String
  priority : Option Priority
  tags : List String
  isCompleted : Bool
deriving DecidableEq, Repr

/-- The slice state: `{ todos, availableTags }`. -/
structure TodoState where
  todos : List Todo
  availableTags : List String
deriving DecidableEq, Repr

/-- Payload of the `addTodo` action:
`{title, description, targetDate?, priority?, tags?}`. -/
structure AddPayload where
  title : String
  description : String
  targetDate : Option String
  priority : Option Priority
  tags : Option (List String)
deriving DecidableEq, Repr

/-- Payload of the `updateTodo` action:
`{id, title, description, targetDate?, priority?, tags?}`. -/
structure UpdatePayload where
  id : String
  title : String
  description : String
  targetDate : Option String
  priority : Option Priority
  tags : Option (List String)
deriving DecidableEq, Repr

/-- The tag-vocabulary step shared by `addTodo` and `updateTodo`:
```js
if (action.payload.tags && action.payload.tags.length > 0) {
    const newTags = action.payload.tags.filter(tag => !state.availableTags.includes(tag))
    state.availableTags = [...state.availableTags, ...newTags]
}
```
-/
def mergeTags (avail : List String) (payloadTags : Option (List String)) :
    List String :=
  match payloadTags with
  | none => avail
  | some ts =>
      if ts.length > 0 then
        avail ++ ts.filter (fun tag => !(avail.contains tag))
      else avail

/-- The `addTodo` reducer.  `newId` is the value returned by `nanoid()`. -/
def addTodo (s : TodoState) (newId : String) (p : AddPayload) : TodoState :=
  let todo : Todo :=
    { id := newId
      title := p.title
      description := p.description
      targetDate := p.targetDate
      priority := p.priority            -- `action.payload.priority || null`
      tags := p.tags.getD []            -- `action.payload.tags || []`
      isCompleted := false }
  { todos := s.todos ++ [todo]          -- `state.todos.push(todo)`
    availableTags := mergeTags s.availableTags p.tags }

/-- The `updateTodo` reducer: maps over the collection, replacing the
mutable fields of every todo whose `id` matches the payload id. -/
def updateTodo (s : TodoState) (p : UpdatePayload) : TodoState :=
  { todos := s.todos.map (fun todo =>
      if todo.id = p.id then
        { todo with
          title := p.title
          description := p.description
          targetDate := p.targetDate
          priority := p.priority
          tags := p.tags.getD [] }      -- `action.payload.tags || []`
      else todo)
    availableTags := mergeTags s.availableTags p.tags }

/-- The `removeTodo` reducer:
`state.todos = state.todos.filter((todo) => todo.id !== action.payload)`. -/
def removeTodo (s : TodoState) (i : String) : TodoState :=
  { s with todos := s.todos.filter (fun todo => todo.id != i) }

/-- The `toggleComplete` reducer: flips `isCompleted` of the matching todo. -/
def toggleComplete (s : TodoState) (i : String) : TodoState :=
  { s with todos := s.todos.map (fun todo =>
      if todo.id = i then { todo with isCompleted := !todo.isCompleted }
      else todo) }

/-- The ids currently present in a collection. -/
def idsOf (l : List Todo) : List String := l.map Todo.id

/-- A single operation on the store, for statements about operation
sequences.  `add` carries the `nanoid()` output alongside the payload. -/
inductive Op where
  | add (newId : String) (p : AddPayload)
  | update (p : UpdatePayload)
  | remove (i : String)
  | toggle (i : String)
deriving DecidableEq, Repr

/-- Dispatch one operation. -/
def applyOp (s : TodoState) : Op → TodoState
  | .add newId p => addTodo s newId p
  | .update p => updateTodo s p
  | .remove i => removeTodo s i
  | .toggle i => toggleComplete s i

/-- Dispatch a sequence of operations, left to right. -/
def applyOps (s : TodoState) (ops : List Op) : TodoState :=
  ops.foldl applyOp s

/-- The view filter: one of the source strings "all", "pending",
"completed". -/
inductive ViewFilter where
  | all
  | pending
  | completed
deriving DecidableEq, Repr

/-- The `switch (filter)` step of `filteredTodos`. -/
def filterTodos (todos : List Todo) : ViewFilter → List Todo
  | .completed => todos.filter (fun todo => todo.isCompleted)
  | .pending => todos.filter (fun todo => !todo.isCompleted)
  | .all => todos

/-- The sort key of the comparator, the `priorityOrder` table of the
source: high 0, medium 1, low 2, null and undefined 3. -/
def priorityRank : Option Priority → Nat
  | some .high => 0
  | some .medium => 1
  | some .low => 2
  | none => 3

/-- Stable insertion of a todo into a list already sorted by
`priorityRank`: the todo goes before the first element whose rank is
not strictly smaller, so earlier elements of equal rank stay earlier,
matching the stability that ECMAScript guarantees for
`Array.prototype.sort`. -/
def insertByRank (t : Todo) : List Todo → List Todo
  | [] => [t]
  | x :: xs =>
      if priorityRank x.priority < priorityRank t.priority then
        x :: insertByRank t xs
      else t :: x :: xs

/-- Stable sort by the comparator
`(a, b) => priorityOrder[a.priority] - priorityOrder[b.priority]`
(insertion sort, which is stable). -/
def sortByPriority : List Todo → List Todo
  | [] => []
  | x :: xs => insertByRank x (sortByPriority xs)

/-- The view projector `filteredTodos` of `TodoForm.jsx`: filter by
completion status, then stable-sort by priority rank. -/
def filteredTodos (todos : List Todo) (f : ViewFilter) : List Todo :=
  sortByPriority (filterTodos todos f)

/-- A sequence of `addTodo` dispatches, each step carrying its
`nanoid()` output and its payload. -/
def addAll (s : TodoState) (steps : List (String × AddPayload)) : TodoState :=
  steps.foldl (fun st q => addTodo st q.fst q.snd) s

/-- An operation whose payload tag list (if any) is duplicate-free, as
the `TagInput` component guarantees for payloads built through the UI. -/
def opTagsNodup (op : Op) : Bool :=
  match op with
  | .add _ p => decide (p.tags.getD []).Nodup
  | .update p => decide (p.tags.getD []).Nodup
  | .remove _ => true
  | .toggle _ => true

/-! ### Helper lemmas -/

lemma mem_mergeTags_of_mem {avail : List String} {pt : Option (List String)}
    {tag : String} (h : tag ∈ avail) : tag ∈ mergeTags avail pt := by
  cases pt with
  | none => exact h
  | some ts =>
      by_cases hlen : ts.length > 0
      · simp only [mergeTags, if_pos hlen]
        exact List.mem_append_left _ h
      · simp only [mergeTags, if_neg hlen]
        exact h

lemma nodup_mergeTags {avail : List String} {pt : Option (List String)}
    (h : avail.Nodup) (hts : (pt.getD []).Nodup) :
    (mergeTags avail pt).Nodup := by
  cases pt with
  | none => exact h
  | some ts =>
      by_cases hlen : ts.length > 0
      · simp only [mergeTags, if_pos hlen]
        refine List.Nodup.append h (List.Nodup.filter _ hts) ?_
        intro a ha hafil
        have := (List.mem_filter.mp hafil).2
        simp only [Bool.not_eq_true', List.contains, List.elem_eq_mem,
          decide_eq_false_iff_not] at this
        exact this ha
      · simp only [mergeTags, if_neg hlen]
        exact h

lemma mem_insertByRank {a t : Todo} {l : List Todo} :
    a ∈ insertByRank t l ↔ a = t ∨ a ∈ l := by
  induction l with
  | nil => simp [insertByRank]
  | cons x xs ih =>
      unfold insertByRank
      split
      · simp only [List.mem_cons, ih]
        tauto
      · simp only [List.mem_cons]

lemma sorted_insertByRank {t : Todo} {l : List Todo}
    (h : l.Pairwise (fun a b => priorityRank a.priority ≤ priorityRank b.priority)) :
    (insertByRank t l).Pairwise
      (fun a b => priorityRank a.priority ≤ priorityRank b.priority) := by
  induction l with
  | nil => simp [insertByRank]
  | cons x xs ih =>
      rw [List.pairwise_cons] at h
      unfold insertByRank
      split
      · rename_i hlt
        rw [List.pairwise_cons]
        refine ⟨?_, ih h.2⟩
        intro y hy
        rcases mem_insertByRank.mp hy with rfl | hy
        · exact Nat.le_of_lt hlt
        · exact h.1 y hy
      · rename_i hge
        have hle : priorityRank t.priority ≤ priorityRank x.priority :=
          Nat.le_of_not_lt hge
        rw [List.pairwise_cons]
        refine ⟨?_, List.pairwise_cons.mpr h⟩
        intro y hy
        rcases List.mem_cons.mp hy with rfl | hy
        · exact hle
        · exact Nat.le_trans hle (h.1 y hy)

lemma filter_insertByRank (t : Todo) (l : List Todo) (r : Nat) :
    (insertByRank t l).filter (fun x => priorityRank x.priority == r) =
      if priorityRank t.priority = r then
        t :: l.filter (fun x => priorityRank x.priority == r)
      else l.filter (fun x => priorityRank x.priority == r) := by
  induction l with
  | nil =>
      unfold insertByRank
      by_cases hr : priorityRank t.priority = r <;>
        simp [List.filter_cons, hr]
  | cons x xs ih =>
      unfold insertByRank
      split
      · rename_i hlt
        by_cases hr : priorityRank t.priority = r
        · have hxr : ¬ priorityRank x.priority = r := by
            intro hx
            rw [hx, ← hr] at hlt
            exact Nat.lt_irrefl _ hlt
          simp [List.filter_cons, hxr, ih, hr]
        · by_cases hx : priorityRank x.priority = r <;>
            simp [List.filter_cons, hx, ih, hr]
      · by_cases hr : priorityRank t.priority = r <;>
          by_cases hx : priorityRank x.priority = r <;>
            simp [List.filter_cons, hr, hx]

lemma mem_sortByPriority {a : Todo} {l : List Todo} :
    a ∈ sortByPriority l ↔ a ∈ l := by
  induction l with
  | nil => simp [sortByPriority]
  | cons x xs ih =>
      unfold sortByPriority
      rw [mem_insertByRank, ih, List.mem_cons]

lemma sorted_sortByPriority (l : List Todo) :
    (sortByPriority l).Pairwise
      (fun a b => priorityRank a.priority ≤ priorityRank b.priority) := by
  induction l with
  | nil => simp [sortByPriority]
  | cons x xs ih => exact sorted_insertByRank ih

lemma filter_sortByPriority (l : List Todo) (r : Nat) :
    (sortByPriority l).filter (fun x => priorityRank x.priority == r) =
      l.filter (fun x => priorityRank x.priority == r) := by
  induction l with
  | nil => rfl
  | cons x xs ih =>
      unfold sortByPriority
      rw [filter_insertByRank]
      by_cases hx : priorityRank x.priority = r
      · rw [if_pos hx, ih]
        simp [List.filter_cons, hx]
      · rw [if_neg hx, ih]
        simp [List.filter_cons, hx]

lemma idsOf_addTodo (s : TodoState) (i : String) (p : AddPayload) :
    idsOf (addTodo s i p).todos = idsOf s.todos ++ [i] := by
  simp [addTodo, idsOf]

lemma idsOf_addAll (steps : List (String × AddPayload)) (s : TodoState) :
    idsOf (addAll s steps).todos = idsOf s.todos ++ steps.map Prod.fst := by
  induction steps generalizing s with
  | nil => simp [addAll]
  | cons q qs ih =>
      show idsOf (addAll (addTodo s q.fst q.snd) qs).todos = _
      rw [ih, idsOf_addTodo]
      simp

lemma updateTodo_getElem (s : TodoState) (p : UpdatePayload) (k : Nat)
    (t0 : Todo) (hget : s.todos[k]? = some t0) :
    (updateTodo s p).todos[k]? = some
      (if t0.id = p.id then
        { t0 with
          title := p.title
          description := p.description
          targetDate := p.targetDate
          priority := p.priority
          tags := p.tags.getD [] }
      else t0) := by
  show (s.todos.map _)[k]? = _
  rw [List.getElem?_map, hget, Option.map_some']

lemma filterTodos_sublist (todos : List Todo) (f : ViewFilter) :
    (filterTodos todos f).Sublist todos := by
  cases f with
  | all => exact List.Sublist.refl _
  | pending => exact List.filter_sublist _
  | completed => exact List.filter_sublist _

/-! ### Sample inputs used by witnesses and counterexamples -/

/-- A store state with no tasks and an empty vocabulary. -/
def emptyState : TodoState := { todos := [], availableTags := [] }

/-- A sample stored todo with id "a". -/
def sampleTodo : Todo :=
  { id := "a", title := "t0", description := "d0", targetDate := none,
    priority := some .high, tags := ["work"], isCompleted := true }

/-- A sample state holding `sampleTodo` and the vocabulary it used. -/
def sampleState : TodoState :=
  { todos := [sampleTodo], availableTags := ["work"] }

/-- A sample `addTodo` payload. -/
def sampleAdd : AddPayload :=
  { title := "t1", description := "d1", targetDate := none,
    priority := none, tags := some ["home"] }

/-- An update payload addressing the id "x" (absent from `emptyState`)
and carrying a fresh tag. -/
def missUpdate : UpdatePayload :=
  { id := "x", title := "t2", description := "d2", targetDate := none,
    priority := none, tags := some ["a"] }

/-- An update payload addressing the id "z" (absent from
`sampleState`) whose only tag is already in the vocabulary of
`sampleState`. -/
def missUpdateKnown : UpdatePayload :=
  { id := "z", title := "t6", description := "", targetDate := none,
    priority := none, tags := some ["work"] }

/-- An update payload addressing `sampleTodo` with all fields replaced. -/
def hitUpdate : UpdatePayload :=
  { id := "a", title := "t3", description := "d3",
    targetDate := some "2024-01-01", priority := some .low,
    tags := some ["n1"] }

/-- An update payload addressing `sampleTodo` with the tags field
absent. -/
def hitUpdateNoTags : UpdatePayload :=
  { id := "a", title := "t4", description := "d4", targetDate := none,
    priority := none, tags := none }

/-- An `addTodo` payload whose tag list repeats one string. -/
def dupTagsAdd : AddPayload :=
  { title := "t5", description := "d5", targetDate := none,
    priority := none, tags := some ["x", "x"] }

/-- A short operation sequence whose payload tag lists are
duplicate-free. -/
def sampleOps : List Op :=
  [Op.add "1" sampleAdd, Op.update hitUpdate, Op.remove "1", Op.toggle "a"]

/-! ### Claims -/

/-- Claim C1, counterexample: an `updateTodo` whose id matches no task
is not a full no-op on the store state — the payload tags are still
merged into the vocabulary.  Concretely, on the empty store an update
for the absent id "x" carrying the tag "a" grows `availableTags`. -/
theorem updateTodo_missing_id_counterexample :
    ¬ missUpdate.id ∈ idsOf emptyState.todos
    ∧ ¬ (updateTodo emptyState missUpdate).availableTags
          = emptyState.availableTags :=
  ⟨by decide, by decide⟩

/-- Claim C1, amended: for every store state and every update payload
whose id matches no task, the task collection (contents and length) is
unchanged and no error is surfaced (the operation is total); moreover
the whole state, vocabulary included, is unchanged whenever every tag
of the payload already sits in the vocabulary (in particular when the
payload carries no tags) — only a payload carrying a tag new to the
vocabulary changes it. -/
theorem updateTodo_missing_id_noop (s : TodoState) (p : UpdatePayload)
    (h : ¬ p.id ∈ idsOf s.todos) :
    (updateTodo s p).todos = s.todos
    ∧ ((∀ tag ∈ p.tags.getD [], tag ∈ s.availableTags) →
        updateTodo s p = s) := by
  have htodos : (updateTodo s p).todos = s.todos := by
    show s.todos.map _ = s.todos
    have hc : ∀ t ∈ s.todos,
        (fun todo =>
          if todo.id = p.id then
            { todo with
              title := p.title
              description := p.description
              targetDate := p.targetDate
              priority := p.priority
              tags := p.tags.getD [] }
          else todo) t = id t := by
      intro t ht
      have hne : ¬ t.id = p.id := fun he =>
        h (he ▸ List.mem_map_of_mem Todo.id ht)
      simp [hne]
    rw [List.map_congr_left hc, List.map_id]
  refine ⟨htodos, ?_⟩
  intro htags
  have hvocab : (updateTodo s p).availableTags = s.availableTags := by
    show mergeTags s.availableTags p.tags = s.availableTags
    cases hpt : p.tags with
    | none => rfl
    | some ts =>
        by_cases hlen : ts.length > 0
        · simp only [mergeTags, if_pos hlen]
          have hnil : ts.filter (fun tag => !(s.availableTags.contains tag)) = [] := by
            rw [List.filter_eq_nil_iff]
            intro a ha
            have hmem : a ∈ s.availableTags := htags a (by rw [hpt]; exact ha)
            simp [List.contains, List.elem_eq_mem, hmem]
          rw [hnil, List.append_nil]
        · simp only [mergeTags, if_neg hlen]
  have hsplit : updateTodo s p =
      ⟨(updateTodo s p).todos, (updateTodo s p).availableTags⟩ := rfl
  rw [hsplit, htodos, hvocab]

/-- Claim C1, witness for the amended statement: an update for an id
absent from `sampleState` whose tag "work" is already in the
vocabulary leaves the whole state unchanged. -/
theorem updateTodo_missing_id_noop_witness :
    ¬ missUpdateKnown.id ∈ idsOf sampleState.todos
    ∧ (updateTodo sampleState missUpdateKnown).todos = sampleState.todos
    ∧ updateTodo sampleState missUpdateKnown = sampleState :=
  ⟨by decide,
   (updateTodo_missing_id_noop sampleState missUpdateKnown (by decide)).1,
   (updateTodo_missing_id_noop sampleState missUpdateKnown (by decide)).2
     (by decide)⟩

/-- Claim C2: for every task collection and filter, the projection is
sorted by priority rank (high 0, medium 1, low 2, none 3), and it is
stable — for each rank the subsequence of that rank in the output
equals, in order, the subsequence of that rank in the filtered
collection, and is a sublist of the input collection (so ties keep
their relative input order). -/
theorem filteredTodos_sorted_stable (todos : List Todo) (f : ViewFilter) :
    (filteredTodos todos f).Pairwise
      (fun a b => priorityRank a.priority ≤ priorityRank b.priority)
    ∧ (∀ r : Nat,
        (filteredTodos todos f).filter (fun t => priorityRank t.priority == r)
          = (filterTodos todos f).filter (fun t => priorityRank t.priority == r))
    ∧ (∀ r : Nat,
        ((filteredTodos todos f).filter
          (fun t => priorityRank t.priority == r)).Sublist todos) := by
  refine ⟨sorted_sortByPriority _, fun r => filter_sortByPriority _ r, fun r => ?_⟩
  rw [filteredTodos, filter_sortByPriority]
  exact (List.filter_sublist _).trans (filterTodos_sublist todos f)

/-- Claim C3: every single store operation (create, update, remove,
toggle) keeps the tag vocabulary a superset of what it was before. -/
theorem availableTags_monotone (s : TodoState) (op : Op) (tag : String)
    (h : tag ∈ s.availableTags) : tag ∈ (applyOp s op).availableTags := by
  cases op with
  | add newId p => exact mem_mergeTags_of_mem h
  | update p => exact mem_mergeTags_of_mem h
  | remove i => exact h
  | toggle i => exact h

/-- Claim C3, witness: the tag "work" survives an `addTodo` dispatch
that introduces a different tag. -/
theorem availableTags_monotone_witness :
    "work" ∈ sampleState.availableTags
    ∧ "work" ∈ (applyOp sampleState (Op.add "1" sampleAdd)).availableTags :=
  ⟨by decide,
   availableTags_monotone sampleState (Op.add "1" sampleAdd) "work" (by decide)⟩

/-- Claim C4, counterexample: starting from a duplicate-free (empty)
vocabulary, a single create whose payload repeats the fresh tag "x"
leaves `availableTags` with a duplicate, because the merge only filters
against the existing vocabulary, not within the payload. -/
theorem availableTags_dup_counterexample :
    emptyState.availableTags.Nodup
    ∧ ¬ ((addTodo emptyState "1" dupTagsAdd).availableTags).Nodup :=
  ⟨by decide, by decide⟩

/-- Claim C4, amended: after every operation sequence starting from a
duplicate-free vocabulary, the vocabulary stays duplicate-free,
provided each create or update payload carries a duplicate-free tag
list (which the tag-input component guarantees for UI payloads). -/
theorem availableTags_nodup (s : TodoState) (ops : List Op)
    (hvocab : s.availableTags.Nodup)
    (hops : ops.all opTagsNodup = true) :
    ((applyOps s ops).availableTags).Nodup := by
  induction ops generalizing s with
  | nil => exact hvocab
  | cons op rest ih =>
      rw [List.all_cons, Bool.and_eq_true] at hops
      show ((applyOps (applyOp s op) rest).availableTags).Nodup
      refine ih _ ?_ hops.2
      cases op with
      | add newId p =>
          have hts : (p.tags.getD []).Nodup := by
            have h1 := hops.1
            simp only [opTagsNodup, decide_eq_true_eq] at h1
            exact h1
          exact nodup_mergeTags hvocab hts
      | update p =>
          have hts : (p.tags.getD []).Nodup := by
            have h1 := hops.1
            simp only [opTagsNodup, decide_eq_true_eq] at h1
            exact h1
          exact nodup_mergeTags hvocab hts
      | remove i => exact hvocab
      | toggle i => exact hvocab

/-- Claim C4, witness for the amended statement: a concrete sequence of
create, update, remove and toggle with duplicate-free payload tag lists
keeps the vocabulary duplicate-free. -/
theorem availableTags_nodup_witness :
    sampleState.availableTags.Nodup
    ∧ sampleOps.all opTagsNodup = true
    ∧ ((applyOps sampleState sampleOps).availableTags).Nodup :=
  ⟨by decide, by decide,
   availableTags_nodup sampleState sampleOps (by decide) (by decide)⟩

/-- Claim C5: `addTodo` appends exactly one task at the end of the
collection, leaving all existing tasks unchanged; the new task carries
the fresh id, `isCompleted = false`, the priority as given (none when
absent) and the tags as given (empty when absent); and, assuming the id
generator stays collision-free, ids remain pairwise distinct after this
create and after any further sequence of creates. -/
theorem addTodo_spec (s : TodoState) (i : String) (p : AddPayload)
    (steps : List (String × AddPayload))
    (hnodup : (idsOf s.todos).Nodup)
    (hfresh : ¬ i ∈ idsOf s.todos)
    (hsteps : (idsOf s.todos ++ steps.map Prod.fst).Nodup) :
    (addTodo s i p).todos.dropLast = s.todos
    ∧ (addTodo s i p).todos.length = s.todos.length + 1
    ∧ (addTodo s i p).todos.getLast? = some
        { id := i, title := p.title, description := p.description,
          targetDate := p.targetDate, priority := p.priority,
          tags := p.tags.getD [], isCompleted := false }
    ∧ (idsOf (addTodo s i p).todos).Nodup
    ∧ (idsOf (addAll s steps).todos).Nodup := by
  refine ⟨?_, ?_, ?_, ?_, ?_⟩
  · show (s.todos ++ [_]).dropLast = s.todos
    exact List.dropLast_concat
  · show (s.todos ++ [_]).length = s.todos.length + 1
    simp
  · show (s.todos ++ [_]).getLast? = _
    exact List.getLast?_concat _
  · rw [idsOf_addTodo]
    refine List.nodup_append.mpr ⟨hnodup, List.nodup_singleton i, ?_⟩
    intro a ha hai
    rw [List.mem_singleton] at hai
    exact hfresh (hai ▸ ha)
  · rw [idsOf_addAll]
    exact hsteps

/-- Claim C5, witness: adding a task with fresh id "b" to
`sampleState`, then a further create with id "c". -/
theorem addTodo_spec_witness :
    (idsOf sampleState.todos).Nodup
    ∧ ¬ "b" ∈ idsOf sampleState.todos
    ∧ (idsOf sampleState.todos ++ [("c", sampleAdd)].map Prod.fst).Nodup
    ∧ ((addTodo sampleState "b" sampleAdd).todos.dropLast = sampleState.todos
       ∧ (addTodo sampleState "b" sampleAdd).todos.length
           = sampleState.todos.length + 1
       ∧ (addTodo sampleState "b" sampleAdd).todos.getLast? = some
           { id := "b", title := sampleAdd.title,
             description := sampleAdd.description,
             targetDate := sampleAdd.targetDate,
             priority := sampleAdd.priority,
             tags := sampleAdd.tags.getD [], isCompleted := false }
       ∧ (idsOf (addTodo sampleState "b" sampleAdd).todos).Nodup
       ∧ (idsOf (addAll sampleState [("c", sampleAdd)]).todos).Nodup) :=
  ⟨by decide, by decide, by decide,
   addTodo_spec sampleState "b" sampleAdd [("c", sampleAdd)]
     (by decide) (by decide) (by decide)⟩

/-- Claim C6: an update addressed at the task in position `k` (whose id
matches the payload id) replaces exactly the mutable fields — title,
description, target date, priority and tags — while keeping that task
id and completion flag; a task whose id does not match is returned
unchanged; and the collection length is preserved. -/
theorem updateTodo_spec (s : TodoState) (p : UpdatePayload) (k : Nat)
    (t0 : Todo) (hget : s.todos[k]? = some t0) :
    (updateTodo s p).todos.length = s.todos.length
    ∧ (t0.id = p.id →
        (updateTodo s p).todos[k]? = some
          { t0 with
            title := p.title
            description := p.description
            targetDate := p.targetDate
            priority := p.priority
            tags := p.tags.getD [] })
    ∧ (¬ t0.id = p.id → (updateTodo s p).todos[k]? = some t0) := by
  refine ⟨?_, ?_, ?_⟩
  · show (s.todos.map _).length = s.todos.length
    exact List.length_map s.todos _
  · intro hmatch
    rw [updateTodo_getElem s p k t0 hget, if_pos hmatch]
  · intro hne
    rw [updateTodo_getElem s p k t0 hget, if_neg hne]

/-- Claim C6, witness: updating `sampleTodo` (id "a", completed)
through `hitUpdate` replaces the mutable fields and keeps id and
completion flag. -/
theorem updateTodo_spec_witness :
    sampleState.todos[0]? = some sampleTodo
    ∧ ((updateTodo sampleState hitUpdate).todos.length
         = sampleState.todos.length
       ∧ (sampleTodo.id = hitUpdate.id →
           (updateTodo sampleState hitUpdate).todos[0]? = some
             { sampleTodo with
               title := hitUpdate.title
               description := hitUpdate.description
               targetDate := hitUpdate.targetDate
               priority := hitUpdate.priority
               tags := hitUpdate.tags.getD [] })
       ∧ (¬ sampleTodo.id = hitUpdate.id →
           (updateTodo sampleState hitUpdate).todos[0]? = some sampleTodo)) :=
  ⟨by decide, updateTodo_spec sampleState hitUpdate 0 sampleTodo (by decide)⟩

/-- Claim C7: for every collection, membership in the projection under
the completed filter or the pending filter coincides with membership in
the projection under the all filter, and no task is in both. -/
theorem filteredTodos_partition (todos : List Todo) (t : Todo) :
    (t ∈ filteredTodos todos ViewFilter.all ↔
       t ∈ filteredTodos todos ViewFilter.completed
       ∨ t ∈ filteredTodos todos ViewFilter.pending)
    ∧ ¬ (t ∈ filteredTodos todos ViewFilter.completed
         ∧ t ∈ filteredTodos todos ViewFilter.pending) := by
  cases hb : t.isCompleted <;>
    simp [filteredTodos, mem_sortByPriority, filterTodos, List.mem_filter, hb]

/-- Claim C8: dispatching `toggleComplete` twice with the same id
restores the store state exactly — the completion flag of the matching
task returns to its original value and the collection is unchanged. -/
theorem toggleComplete_twice (s : TodoState) (i : String) :
    toggleComplete (toggleComplete s i) i = s := by
  cases s with
  | mk todos avail =>
      simp only [toggleComplete, List.map_map, TodoState.mk.injEq]
      refine ⟨List.map_id'' ?_ todos, trivial⟩
      intro t
      dsimp only [Function.comp]
      by_cases h : t.id = i
      · rw [if_pos h,
          if_pos (show ({ t with isCompleted := !t.isCompleted } : Todo).id = i from h),
          Bool.not_not]
      · rw [if_neg h, if_neg h]

/-- Claim C9: `removeTodo` never touches the tag vocabulary, even when
the removed task was the only task carrying some of its tags. -/
theorem removeTodo_preserves_availableTags (s : TodoState) (i : String) :
    (removeTodo s i).availableTags = s.availableTags := rfl

/-- Claim C10: an update addressed at the task in position `k` (id
matching, currently carrying a non-empty tag list) whose payload has an
absent or empty tags field leaves that task with the empty tag list:
the previous tags are replaced, not preserved. -/
theorem updateTodo_absent_tags_clears (s : TodoState) (p : UpdatePayload)
    (k : Nat) (t0 : Todo) (hget : s.todos[k]? = some t0)
    (hmatch : t0.id = p.id) (_hprev : ¬ t0.tags = [])
    (htags : p.tags = none ∨ p.tags = some []) :
    ((updateTodo s p).todos[k]?).map Todo.tags = some [] := by
  rw [updateTodo_getElem s p k t0 hget, if_pos hmatch, Option.map_some']
  rcases htags with hn | hn
  · rw [hn]
    rfl
  · rw [hn]
    rfl

/-- Claim C10, witness: updating `sampleTodo` (which carries the tag
"work") with a payload whose tags field is absent clears its tag
list. -/
theorem updateTodo_absent_tags_clears_witness :
    sampleState.todos[0]? = some sampleTodo
    ∧ sampleTodo.id = hitUpdateNoTags.id
    ∧ ¬ sampleTodo.tags = []
    ∧ ((none : Option (List String)) = none ∨
        (none : Option (List String)) = some [])
    ∧ ((updateTodo sampleState hitUpdateNoTags).todos[0]?).map Todo.tags
        = some [] :=
  ⟨by decide, by decide, by decide, Or.inl rfl,
   updateTodo_absent_tags_clears sampleState hitUpdateNoTags 0 sampleTodo
     (by decide) (by decide) (by decide) (Or.inl rfl)⟩

end TaskTracker
